import Mathlib

/-!
Verification development for davesSNBulkDataExportTool.py, a single-class
paginated table exporter.  The Python class `SNDataExport` is shallowly
embedded below: option loading/validation, the output-file handle life
cycle, the JSON "result" extraction, the csv.DictWriter row emission
(unix dialect), and the `run` pagination loop, with the remote instance
modelled as a scripted list of HTTP responses.
-/

namespace SNDE

/-- JSON values as they occur in table-API response bodies: objects,
arrays, strings and null (numbers do not occur in the table API and are
not needed by any statement below). -/
inductive Json where
  | null
  | str (s : String)
  | arr (elems : List Json)
  | obj (fields : List (String × Json))

/-- Python exceptions the embedded code can raise, one constructor per
raise site.  `valueErrorInstance`, `valueErrorUsername` and
`valueErrorPassword` are the three ValueError raises in
`loadAndValidate`; `ioError` is a failing `open`; `httpError` comes from
`raise_for_status`; `keyError` is a failing dict lookup
(`json["result"]` with the key absent); `typeErrorResult` is the
TypeError raised by `getResultCountFromJson` when `result` is not a
list; `valueErrorFields` is DictWriter rejecting extra keys;
`attributeErrorRow` is `.items()` / `.keys()` on a non-dict row;
`attributeError` is reading the never-assigned `self.csvFile`;
`connectionError` models `requests.get` failing with no response;
`indexError` is an out-of-range list index. -/
inductive PyError where
  | valueErrorInstance
  | valueErrorUsername
  | valueErrorPassword
  | ioError
  | connectionError
  | httpError (status : Nat)
  | keyError
  | typeErrorResult
  | attributeErrorRow
  | indexError
  | valueErrorFields
  | attributeError
deriving DecidableEq, Repr

/-- One scripted HTTP response from the remote instance: either a
non-success status (so `raise_for_status` raises HTTPError) or a parsed
JSON object body. -/
inductive Response where
  | failure (status : Nat)
  | success (body : List (String × Json))

/-- A query-parameter value as placed in the Python params dict:
string, int, or bool. -/
inductive PValue where
  | s (v : String)
  | i (v : Int)
  | b (v : Bool)
deriving DecidableEq, Repr

/-- A Python dict of query parameters, in insertion order. -/
abbrev Params : Type := List (String × PValue)

/-- The resolved command-line options, one field per argparse
destination that `run` reads.  Absent optional strings are modelled as
the empty string, matching Python truthiness (`not x` is true for both
None and the empty string). -/
structure ExportOptions where
  pageSize : Int
  table : String
  instanceName : String
  instanceUrl : String
  displayValue : Bool
  outputName : String
  authType : String
  query : String
  rowLimit : Int
  fields : String
  username : String
  password : String
deriving DecidableEq, Repr

/-- The world outside the program: whether `open` on the output path
succeeds, and the scripted sequence of responses the instance returns
to successive `requests.get` calls. -/
structure Env where
  openOk : Bool
  responses : List Response

/-- State of the `self.csvFile` attribute: never assigned (reading it
raises AttributeError), assigned False by `closeOutputFile`, or holding
an open file handle. -/
inductive FileSlot where
  | unset
  | closed
  | opened
deriving DecidableEq, Repr

/-- Observable state threaded through `run`: the csvFile slot, the rows
written to the output file (as lists of cell strings, header included),
the query-parameter dicts of the issued requests, how many requests
were issued, `self.rowCount`, and `self.pageIdx`. -/
structure St where
  slot : FileSlot
  fileRows : List (List String)
  requests : List Params
  fetchCount : Nat
  rowCount : Nat
  pageIdx : Nat

/-- Python dict lookup (keys are unique, first match). -/
def dictGet {α : Type} (k : String) : List (String × α) → Option α
  | [] => none
  | kv :: rest => if kv.fst = k then some kv.snd else dictGet k rest

/-- Auth mode string constants of the class. -/
def AUTH_BASIC : String := "basic"

/-- loadAndValidate: resolve the instance URL (deriving it from the
instance name when no explicit URL is given) and validate basic-auth
credentials, exactly in source order. -/
def loadAndValidate (o : ExportOptions) : Except PyError String :=
  match (if o.instanceUrl ≠ "" then Except.ok o.instanceUrl
         else if o.instanceName = "" then Except.error PyError.valueErrorInstance
         else Except.ok (o.instanceName ++ ".service-now.com")) with
  | Except.error e => Except.error e
  | Except.ok url =>
    if o.authType = AUTH_BASIC ∧ o.username = "" then Except.error PyError.valueErrorUsername
    else if o.authType = AUTH_BASIC ∧ o.password = "" then Except.error PyError.valueErrorPassword
    else Except.ok url

/-- closeOutputFile: `if (self.csvFile): self.csvFile.close(); self.csvFile = False`.
Reading the attribute when it was never assigned raises AttributeError;
a falsy value (False after a previous close) makes the call a no-op. -/
def closeOutputFile : FileSlot → Except PyError FileSlot
  | FileSlot.unset => Except.error PyError.attributeError
  | FileSlot.closed => Except.ok FileSlot.closed
  | FileSlot.opened => Except.ok FileSlot.closed

/-- getResultCountFromJson: `c = json["result"]` (KeyError when absent),
then a TypeError unless `c` is a list, then `len(c)`. -/
def getResultCountFromJson (body : List (String × Json)) : Except PyError Nat :=
  match dictGet "result" body with
  | none => Except.error PyError.keyError
  | some (Json.arr xs) => Except.ok xs.length
  | some _ => Except.error PyError.typeErrorResult

/-- The `result` list of a response body, as iterated by `run` after
`getResultCountFromJson` has established that it is a list. -/
def resultList (body : List (String × Json)) : List Json :=
  match dictGet "result" body with
  | some (Json.arr xs) => xs
  | _ => []

/-- getHeaderNamesFromJson: the keys of the first row in insertion
order; `.items()` on a non-dict raises AttributeError. -/
def getHeaderNamesFromJson : Json → Except PyError (List String)
  | Json.obj fields => Except.ok (fields.map Prod.fst)
  | _ => Except.error PyError.attributeErrorRow

/-- String coercion the csv writer applies to a cell value.  Python
writes None as the empty string; table-API field values are strings.
Composite values never occur in any statement below and are rendered
with a fixed placeholder. -/
def pyStr : Json → String
  | Json.null => ""
  | Json.str s => s
  | Json.arr _ => "[...]"
  | Json.obj _ => "[...]"

/-- A cell value: a present field is coerced with `pyStr`; a field
missing from the row is filled with DictWriter restval (None, written
as the empty string). -/
def fieldToStr : Option Json → String
  | none => ""
  | some j => pyStr j

/-- DictWriter._dict_to_list: rows containing a key outside the
fieldnames raise ValueError (extrasaction defaults to raise); otherwise
the cells are the fieldnames mapped through the row. -/
def dictToCells (fieldnames : List String) (row : List (String × Json)) : Except PyError (List String) :=
  if row.all (fun kv => fieldnames.contains kv.fst) then
    Except.ok (fieldnames.map (fun f => fieldToStr (dictGet f row)))
  else Except.error PyError.valueErrorFields

/-- csvWriter.writerow on one row: the row must be a mapping. -/
def writerow (fieldnames : List String) : Json → Except PyError (List String)
  | Json.obj row => dictToCells fieldnames row
  | _ => Except.error PyError.attributeErrorRow

/-- The row-writing loop of `run` over one page of results: before each
row, break when `rowLimit > 0 and rowCount > rowLimit`; otherwise
writerow and increment rowCount.  Returns the outcome, the final
rowCount, and the accumulated file rows (kept even when a writerow
raises, since earlier rows are already in the file). -/
def writeRows (fieldnames : List String) (rowLimit : Int) :
    List Json → Nat → List (List String) → Except PyError Unit × Nat × List (List String)
  | [], c, acc => (Except.ok (), c, acc)
  | r :: rest, c, acc =>
    if rowLimit > 0 ∧ (c : Int) > rowLimit then (Except.ok (), c, acc)
    else match writerow fieldnames r with
      | Except.error e => (Except.error e, c, acc)
      | Except.ok cells => writeRows fieldnames rowLimit rest (c + 1) (acc ++ [cells])

/-- The params dict shared by every request, in insertion order:
sysparm_limit (the pageSize option), the fixed
sysparm_exclude_reference_link = "true", sysparm_display_value,
sysparm_query, and sysparm_fields only when the fields option is
truthy.  Note that no offset parameter is included. -/
def commonParams (o : ExportOptions) : Params :=
  ([("sysparm_limit", PValue.i o.pageSize),
    ("sysparm_exclude_reference_link", PValue.s "true"),
    ("sysparm_display_value", PValue.b o.displayValue),
    ("sysparm_query", PValue.s o.query)] : Params)
  ++ (if o.fields ≠ "" then ([("sysparm_fields", PValue.s o.fields)] : Params) else ([] : Params))

/-- The params dict of the request for page k (k ≥ 1): the common
params plus sysparm_offset = k * pageSize appended. -/
def pageRequest (o : ExportOptions) (k : Nat) : Params :=
  commonParams o ++ ([("sysparm_offset", PValue.i ((k : Int) * o.pageSize))] : Params)

/-- The URL `makeRequest` targets. -/
def makeRequestUrl (instanceUrl table : String) : String :=
  "https://" ++ instanceUrl ++ "/api/now/table/" ++ table

/-- The `while (True)` pagination loop of `run`: increment pageIdx,
offset = pageIdx * pageSize, request the page, count the results, write
the rows, and return when the page is shorter than the page size.  The
scripted response list exhausting models the network failing. -/
def pagingLoop (pageSize rowLimit : Int) (common : Params) (fieldnames : List String)
    (responses : List Response) (st : St) : Except PyError Unit × St :=
  let pageIdx := st.pageIdx + 1
  let pageParams : Params := common ++ ([("sysparm_offset", PValue.i ((pageIdx : Int) * pageSize))] : Params)
  match responses with
  | [] => (Except.error PyError.connectionError,
      { st with pageIdx := pageIdx, requests := st.requests ++ [pageParams],
                fetchCount := st.fetchCount + 1 })
  | Response.failure s :: _ => (Except.error (PyError.httpError s),
      { st with pageIdx := pageIdx, requests := st.requests ++ [pageParams],
                fetchCount := st.fetchCount + 1 })
  | Response.success body :: rest =>
    let st1 := { st with pageIdx := pageIdx, requests := st.requests ++ [pageParams],
                         fetchCount := st.fetchCount + 1 }
    match getResultCountFromJson body with
    | Except.error e => (Except.error e, st1)
    | Except.ok pageCount =>
      match writeRows fieldnames rowLimit (resultList body) st1.rowCount st1.fileRows with
      | (Except.error e, c, fr) => (Except.error e, { st1 with rowCount := c, fileRows := fr })
      | (Except.ok _, c, fr) =>
        let st2 := { st1 with rowCount := c, fileRows := fr }
        if (pageCount : Int) < pageSize then (Except.ok (), st2)
        else pagingLoop pageSize rowLimit common fieldnames rest st2

/-- The body of `run` from the first request onward, entered after the
output file was opened: issue the first request (no offset parameter),
count the results, return early on zero rows, derive the header from
the first row, write header and first-page rows, then either finish
(short first page) or enter the pagination loop. -/
def processFirst (o : ExportOptions) (responses : List Response) : Except PyError Unit × St :=
  let common := commonParams o
  let tr0 : St := { slot := FileSlot.opened, fileRows := [], requests := [common],
                    fetchCount := 1, rowCount := 0, pageIdx := 0 }
  match responses with
  | [] => (Except.error PyError.connectionError, tr0)
  | Response.failure s :: _ => (Except.error (PyError.httpError s), tr0)
  | Response.success body :: rest =>
    match getResultCountFromJson body with
    | Except.error e => (Except.error e, tr0)
    | Except.ok cnt =>
      if cnt = 0 then (Except.ok (), tr0)
      else
        match resultList body with
        | [] => (Except.error PyError.indexError, tr0)
        | firstRow :: _ =>
          match getHeaderNamesFromJson firstRow with
          | Except.error e => (Except.error e, tr0)
          | Except.ok fieldnames =>
            match writeRows fieldnames o.rowLimit (resultList body) 0 [fieldnames] with
            | (Except.error e, c, fr) => (Except.error e, { tr0 with fileRows := fr, rowCount := c })
            | (Except.ok _, c, fr) =>
              if (cnt : Int) < o.pageSize then (Except.ok (), { tr0 with fileRows := fr, rowCount := c })
              else
                pagingLoop o.pageSize o.rowLimit common fieldnames rest
                  { slot := FileSlot.opened, fileRows := fr, requests := [common],
                    fetchCount := 1, rowCount := c, pageIdx := 0 }

/-- The try-block of `run`: loadAndValidate, openOutputFile (the slot
is assigned only when `open` succeeds), then `processFirst`. -/
def runBody (o : ExportOptions) (env : Env) : Except PyError Unit × St :=
  let empty : St := { slot := FileSlot.unset, fileRows := [], requests := [],
                      fetchCount := 0, rowCount := 0, pageIdx := 0 }
  match loadAndValidate o with
  | Except.error e => (Except.error e, empty)
  | Except.ok _ =>
    if env.openOk then processFirst o env.responses
    else (Except.error PyError.ioError, empty)

/-- Outcome of one `run` call: `raised` is the try-block outcome (after
the except clause re-raises), `outcome` is what propagates out of the
try/finally (an exception raised by `closeOutputFile` in the finally
clause replaces the in-flight one), `closeRaised` records whether the
finally clause itself raised, and `final` is the final state. -/
structure RunResult where
  raised : Except PyError Unit
  outcome : Except PyError Unit
  closeRaised : Bool
  final : St

/-- run: the try body, then the finally clause calling
`closeOutputFile` exactly once. -/
def run (o : ExportOptions) (env : Env) : RunResult :=
  let r := runBody o env
  match closeOutputFile r.2.slot with
  | Except.error e =>
      { raised := r.1, outcome := Except.error e, closeRaised := true, final := r.2 }
  | Except.ok slot2 =>
      { raised := r.1, outcome := r.1, closeRaised := false, final := { r.2 with slot := slot2 } }

/-- Double every embedded quote character, as the doublequote option of
the unix csv dialect does. -/
def escapeQuotes : List Char → List Char
  | [] => []
  | c :: rest =>
    if c = Char.ofNat 34 then c :: c :: escapeQuotes rest else c :: escapeQuotes rest

/-- Quote one cell the way the unix csv dialect does (QUOTE_ALL,
doublequote): wrap in double quotes, doubling embedded quotes. -/
def csvQuote (s : String) : String :=
  String.mk (Char.ofNat 34 :: (escapeQuotes s.data ++ [Char.ofNat 34]))

/-- Serialize one output row as a line of the unix csv dialect (every
field quoted, comma-separated; the trailing newline is left off). -/
def csvUnixLine (cells : List String) : String :=
  String.intercalate "," (cells.map csvQuote)

/-- Whether loadAndValidate accepts the options. -/
def validConfig (o : ExportOptions) : Bool :=
  match loadAndValidate o with
  | Except.ok _ => true
  | Except.error _ => false

/-- The configuration ValueErrors of loadAndValidate. -/
def isConfigError : PyError → Bool
  | PyError.valueErrorInstance => true
  | PyError.valueErrorUsername => true
  | PyError.valueErrorPassword => true
  | _ => false

/-- The rows of a body whose `result` field is a list. -/
def pageRows (body : List (String × Json)) : Option (List Json) :=
  match dictGet "result" body with
  | some (Json.arr xs) => some xs
  | _ => none

/-- Whether `result` holds a list. -/
def isArr : Json → Bool
  | Json.arr _ => true
  | _ => false

/-- A row that writerow accepts against the given fieldnames: a
mapping whose keys all appear among the fieldnames. -/
def rowWritable (fieldnames : List String) : Json → Bool
  | Json.obj f => f.all (fun kv => fieldnames.contains kv.fst)
  | _ => false

/-- Rows that every writerow accepts against the given fieldnames. -/
def rowsWritable (fieldnames : List String) (rows : List Json) : Bool :=
  rows.all (rowWritable fieldnames)

/-- The shape every issued request has: the very first request carries
exactly the common params (no offset), and the request for page k
(k ≥ 1) carries the common params plus offset k * pageSize. -/
def requestsSpec (o : ExportOptions) (reqs : List Params) : Prop :=
  ∀ k p, reqs.get? k = some p →
    (k = 0 → p = commonParams o) ∧ (1 ≤ k → p = pageRequest o k)

/-- A data row with a single sys_id field holding the row number, for
building pages of sequential rows. -/
def mkRow (n : Nat) : Json := Json.obj [("sys_id", Json.str (toString n))]

/-- cnt sequential rows starting at start. -/
def seqRows (start cnt : Nat) : List Json :=
  (List.range cnt).map (fun i => mkRow (start + i))

/-- A successful response whose result is cnt sequential rows starting
at start. -/
def seqPage (start cnt : Nat) : Response :=
  Response.success [("result", Json.arr (seqRows start cnt))]

/-- A baseline valid set of options (auth none, instance name given,
no row limit, page size 3). -/
def optsBase : ExportOptions :=
  { pageSize := 3, table := "incident", instanceName := "dev1", instanceUrl := "",
    displayValue := false, outputName := "out.csv", authType := "none",
    query := "ORDERBYsys_id", rowLimit := 0, fields := "", username := "", password := "" }

/-- Options with a row limit of 5 and page size 3. -/
def optsLimit5 : ExportOptions := { optsBase with rowLimit := 5 }

/-- Environment delivering pages of 3 sequential rows until a short
page of 2: 11 rows available in all. -/
def envSeq : Env :=
  { openOk := true, responses := [seqPage 0 3, seqPage 3 3, seqPage 6 3, seqPage 9 2] }

/-- Options whose validation fails: both instance URL and instance name
empty. -/
def optsNoInstance : ExportOptions := { optsBase with instanceName := "", instanceUrl := "" }

/-- Options using basic auth with an empty username. -/
def optsBasicNoUser : ExportOptions :=
  { optsBase with authType := "basic", password := "pw" }

/-- An environment with one available empty-result page. -/
def envEmptyResult : Env :=
  { openOk := true, responses := [Response.success [("result", Json.arr [])]] }

/-- An environment whose first response body lacks the result field. -/
def envNoResult : Env :=
  { openOk := true, responses := [Response.success [("x", Json.null)]] }

/-- A row having exactly the fields a and b. -/
def rowAB (va vb : String) : Json := Json.obj [("a", Json.str va), ("b", Json.str vb)]

/-- Options requesting the field list a,b with page size 2. -/
def optsAB : ExportOptions := { optsBase with fields := "a,b", pageSize := 2 }

/-- An environment returning one short page of one a/b row. -/
def envAB : Env :=
  { openOk := true, responses := [Response.success [("result", Json.arr [rowAB "1" "2"])]] }

/-- An environment whose single page has a first row with only field a
and a second row with the extra field c. -/
def envExtraField : Env :=
  { openOk := true,
    responses := [Response.success [("result", Json.arr
      [Json.obj [("a", Json.str "1")],
       Json.obj [("a", Json.str "2"), ("c", Json.str "3")]])]] }

/-- The row used in the full-page/short-page scenario. -/
def rowA : Json := Json.obj [("a", Json.str "x")]

/-- Options with the default page size 500. -/
def opts500 : ExportOptions := { optsBase with pageSize := 500 }

/-- A body whose result is 500 identical rows. -/
def body500 : List (String × Json) := [("result", Json.arr (List.replicate 500 rowA))]

/-- A body whose result is 200 identical rows. -/
def body200 : List (String × Json) := [("result", Json.arr (List.replicate 200 rowA))]

/-- Environment for the 500-then-200 pagination scenario. -/
def env500 : Env :=
  { openOk := true, responses := [Response.success body500, Response.success body200] }

/-! Helper lemmas about the row-writing loop. -/

theorem writeRows_fst_ok (fieldnames : List String) (rowLimit : Int) :
    ∀ (rows : List Json) (c : Nat) (acc : List (List String)),
      rowsWritable fieldnames rows = true →
      (writeRows fieldnames rowLimit rows c acc).1 = Except.ok () := by
  intro rows
  induction rows with
  | nil => intro c acc _; rfl
  | cons r rest ih =>
    intro c acc h
    rw [rowsWritable, List.all_cons, Bool.and_eq_true] at h
    obtain ⟨h1, h2⟩ := h
    rw [writeRows]
    split
    · rfl
    · cases r with
      | obj f =>
        rw [rowWritable] at h1
        simp only [writerow, dictToCells, h1, if_true]
        exact ih (c + 1) (acc ++ [fieldnames.map (fun fd => fieldToStr (dictGet fd f))]) h2
      | null => simp [rowWritable] at h1
      | str s => simp [rowWritable] at h1
      | arr xs => simp [rowWritable] at h1

theorem writerow_length (fieldnames : List String) (r : Json) (cells : List String)
    (h : writerow fieldnames r = Except.ok cells) : cells.length = fieldnames.length := by
  cases r with
  | obj f =>
    rw [writerow, dictToCells] at h
    by_cases hc : f.all (fun kv => fieldnames.contains kv.fst) = true
    · rw [if_pos hc] at h
      cases h
      exact List.length_map _ _
    · rw [if_neg hc] at h
      cases h
  | null => cases h
  | str s => cases h
  | arr xs => cases h

theorem writeRows_acc_prefix (fieldnames : List String) (rowLimit : Int) :
    ∀ (rows : List Json) (c : Nat) (acc : List (List String)),
      ∃ extra, (writeRows fieldnames rowLimit rows c acc).2.2 = acc ++ extra := by
  intro rows
  induction rows with
  | nil => intro c acc; exact ⟨[], (List.append_nil acc).symm⟩
  | cons r rest ih =>
    intro c acc
    rw [writeRows]
    split
    · exact ⟨[], (List.append_nil acc).symm⟩
    · cases hw : writerow fieldnames r with
      | error e => exact ⟨[], (List.append_nil acc).symm⟩
      | ok cells =>
        obtain ⟨extra, hx⟩ := ih (c + 1) (acc ++ [cells])
        exact ⟨[cells] ++ extra, by rw [hx, List.append_assoc]⟩

theorem writeRows_lengths (fieldnames : List String) (rowLimit : Int) :
    ∀ (rows : List Json) (c : Nat) (acc : List (List String)),
      (∀ l ∈ acc, l.length = fieldnames.length) →
      ∀ l ∈ (writeRows fieldnames rowLimit rows c acc).2.2, l.length = fieldnames.length := by
  intro rows
  induction rows with
  | nil => intro c acc hacc; exact hacc
  | cons r rest ih =>
    intro c acc hacc
    rw [writeRows]
    split
    · exact hacc
    · cases hw : writerow fieldnames r with
      | error e => exact hacc
      | ok cells =>
        refine ih (c + 1) (acc ++ [cells]) ?_
        intro l hl
        rcases List.mem_append.mp hl with hl | hl
        · exact hacc l hl
        · rcases List.mem_singleton.mp hl with rfl
          exact writerow_length fieldnames r l hw

/-! Helper lemmas about the pagination loop. -/

theorem pagingLoop_slot (ps rl : Int) (common : Params) (fn : List String) :
    ∀ (responses : List Response) (st : St),
      (pagingLoop ps rl common fn responses st).2.slot = st.slot := by
  intro responses
  induction responses with
  | nil => intro st; rfl
  | cons r rest ih =>
    intro st
    rw [pagingLoop.eq_def]
    cases r with
    | failure s => rfl
    | success body =>
      cases hcnt : getResultCountFromJson body with
      | error e => simp only [hcnt]
      | ok cnt =>
        simp only [hcnt]
        rcases hw : writeRows fn rl (resultList body) st.rowCount st.fileRows with ⟨res, c, fr⟩
        cases res with
        | error e => simp only [hw]
        | ok u =>
          simp only [hw]
          split
          · rfl
          · exact ih _

theorem pagingLoop_fileRows_prefix (ps rl : Int) (common : Params) (fn : List String) :
    ∀ (responses : List Response) (st : St),
      ∃ extra, (pagingLoop ps rl common fn responses st).2.fileRows = st.fileRows ++ extra := by
  intro responses
  induction responses with
  | nil => intro st; exact ⟨[], (List.append_nil _).symm⟩
  | cons r rest ih =>
    intro st
    rw [pagingLoop.eq_def]
    cases r with
    | failure s => exact ⟨[], (List.append_nil _).symm⟩
    | success body =>
      cases hcnt : getResultCountFromJson body with
      | error e => simp only [hcnt]; exact ⟨[], (List.append_nil _).symm⟩
      | ok cnt =>
        simp only [hcnt]
        rcases hw : writeRows fn rl (resultList body) st.rowCount st.fileRows with ⟨res, c, fr⟩
        obtain ⟨extra1, hx1⟩ := writeRows_acc_prefix fn rl (resultList body) st.rowCount st.fileRows
        rw [hw] at hx1
        cases res with
        | error e => simp only [hw]; exact ⟨extra1, hx1⟩
        | ok u =>
          simp only [hw]
          split
          · exact ⟨extra1, hx1⟩
          · obtain ⟨extra2, hx2⟩ := ih _
            refine ⟨extra1 ++ extra2, ?_⟩
            rw [← List.append_assoc, ← hx1]
            exact hx2

theorem pagingLoop_lengths (ps rl : Int) (common : Params) (fn : List String) :
    ∀ (responses : List Response) (st : St),
      (∀ l ∈ st.fileRows, l.length = fn.length) →
      ∀ l ∈ (pagingLoop ps rl common fn responses st).2.fileRows, l.length = fn.length := by
  intro responses
  induction responses with
  | nil => intro st h; exact h
  | cons r rest ih =>
    intro st h
    rw [pagingLoop.eq_def]
    cases r with
    | failure s => exact h
    | success body =>
      cases hcnt : getResultCountFromJson body with
      | error e => simp only [hcnt]; exact h
      | ok cnt =>
        simp only [hcnt]
        rcases hw : writeRows fn rl (resultList body) st.rowCount st.fileRows with ⟨res, c, fr⟩
        have hfr : ∀ l ∈ fr, l.length = fn.length := by
          have := writeRows_lengths fn rl (resultList body) st.rowCount st.fileRows h
          rw [hw] at this
          exact this
        cases res with
        | error e => exact hfr
        | ok u =>
          simp only [hw]
          split
          · exact hfr
          · exact ih _ hfr

theorem requestsSpec_single (o : ExportOptions) : requestsSpec o [commonParams o] := by
  intro k p hp
  cases k with
  | zero =>
    simp only [List.get?] at hp
    cases hp
    exact ⟨fun _ => rfl, fun h => absurd h (by omega)⟩
  | succ n =>
    simp only [List.get?] at hp
    cases n <;> cases hp

theorem requestsSpec_append (o : ExportOptions) (reqs : List Params) (k : Nat)
    (hlen : reqs.length = k) (hk : 1 ≤ k) (h : requestsSpec o reqs) :
    requestsSpec o (reqs ++ [pageRequest o k]) := by
  intro j p hp
  rcases Nat.lt_trichotomy j reqs.length with hj | hj | hj
  · rw [List.get?_append hj] at hp
    exact h j p hp
  · subst hj
    rw [List.get?_concat_length] at hp
    cases hp
    refine ⟨fun h0 => absurd h0 (by omega), fun _ => ?_⟩
    rw [hlen]
  · rw [List.get?_eq_none.mpr (by simp; omega)] at hp
    cases hp

theorem pagingLoop_requests (ps rl : Int) (o : ExportOptions) (fn : List String)
    (hps : ps = o.pageSize) :
    ∀ (responses : List Response) (st : St),
      st.requests.length = st.pageIdx + 1 →
      requestsSpec o st.requests →
      (pagingLoop ps rl (commonParams o) fn responses st).2.requests.length
          = (pagingLoop ps rl (commonParams o) fn responses st).2.pageIdx + 1 ∧
      requestsSpec o (pagingLoop ps rl (commonParams o) fn responses st).2.requests := by
  subst hps
  intro responses
  induction responses with
  | nil =>
    intro st hlen hspec
    rw [pagingLoop.eq_def]
    have hone : (commonParams o ++ ([("sysparm_offset",
        PValue.i (((st.pageIdx + 1 : Nat) : Int) * o.pageSize))] : Params))
        = pageRequest o (st.pageIdx + 1) := rfl
    simp only [hone]
    constructor
    · simp [hlen]
    · exact requestsSpec_append o st.requests (st.pageIdx + 1) hlen (by omega) hspec
  | cons r rest ih =>
    intro st hlen hspec
    rw [pagingLoop.eq_def]
    have hone : (commonParams o ++ ([("sysparm_offset",
        PValue.i (((st.pageIdx + 1 : Nat) : Int) * o.pageSize))] : Params))
        = pageRequest o (st.pageIdx + 1) := rfl
    have hlen1 : (st.requests ++ [pageRequest o (st.pageIdx + 1)]).length = (st.pageIdx + 1) + 1 := by
      simp [hlen]
    have hspec1 : requestsSpec o (st.requests ++ [pageRequest o (st.pageIdx + 1)]) :=
      requestsSpec_append o st.requests (st.pageIdx + 1) hlen (by omega) hspec
    cases r with
    | failure s =>
      simp only [hone]
      exact ⟨hlen1, hspec1⟩
    | success body =>
      cases hcnt : getResultCountFromJson body with
      | error e =>
        simp only [hcnt, hone]
        exact ⟨hlen1, hspec1⟩
      | ok cnt =>
        simp only [hcnt, hone]
        rcases hw : writeRows fn rl (resultList body) st.rowCount st.fileRows with ⟨res, c, fr⟩
        cases res with
        | error e =>
          simp only [hw]
          exact ⟨hlen1, hspec1⟩
        | ok u =>
          simp only [hw]
          split
          · exact ⟨hlen1, hspec1⟩
          · exact ih _ hlen1 hspec1

theorem requestsSpec_head (o : ExportOptions) (reqs : List Params)
    (hlen : 0 < reqs.length) (hspec : requestsSpec o reqs) :
    reqs.get? 0 = some (commonParams o) := by
  cases hget : reqs.get? 0 with
  | none => rw [List.get?_eq_none] at hget; omega
  | some p => rw [(hspec 0 p hget).1 rfl]

theorem processFirst_slot (o : ExportOptions) (responses : List Response) :
    (processFirst o responses).2.slot = FileSlot.opened := by
  rw [processFirst.eq_def]
  cases responses with
  | nil => rfl
  | cons r rest =>
    cases r with
    | failure s => rfl
    | success body =>
      cases hcnt : getResultCountFromJson body with
      | error e => simp only [hcnt]
      | ok cnt =>
        simp only [hcnt]
        split
        · rfl
        · cases hrl : resultList body with
          | nil => simp only [hrl]
          | cons firstRow rtl =>
            simp only [hrl]
            cases hh : getHeaderNamesFromJson firstRow with
            | error e => simp only [hh]
            | ok fns =>
              simp only [hh]
              rcases hw : writeRows fns o.rowLimit (firstRow :: rtl) 0 [fns] with ⟨res, c, fr⟩
              cases res with
              | error e => simp only [hw]
              | ok u =>
                simp only [hw]
                split
                · rfl
                · rw [pagingLoop_slot]

theorem processFirst_requests (o : ExportOptions) (responses : List Response) :
    (processFirst o responses).2.requests.get? 0 = some (commonParams o) ∧
    requestsSpec o (processFirst o responses).2.requests := by
  rw [processFirst.eq_def]
  cases responses with
  | nil => exact ⟨rfl, requestsSpec_single o⟩
  | cons r rest =>
    cases r with
    | failure s => exact ⟨rfl, requestsSpec_single o⟩
    | success body =>
      cases hcnt : getResultCountFromJson body with
      | error e => simp only [hcnt]; exact ⟨rfl, requestsSpec_single o⟩
      | ok cnt =>
        simp only [hcnt]
        split
        · exact ⟨rfl, requestsSpec_single o⟩
        · cases hrl : resultList body with
          | nil => simp only [hrl]; exact ⟨rfl, requestsSpec_single o⟩
          | cons firstRow rtl =>
            simp only [hrl]
            cases hh : getHeaderNamesFromJson firstRow with
            | error e => simp only [hh]; exact ⟨rfl, requestsSpec_single o⟩
            | ok fns =>
              simp only [hh]
              rcases hw : writeRows fns o.rowLimit (firstRow :: rtl) 0 [fns] with ⟨res, c, fr⟩
              cases res with
              | error e => simp only [hw]; exact ⟨rfl, requestsSpec_single o⟩
              | ok u =>
                simp only [hw]
                split
                · exact ⟨rfl, requestsSpec_single o⟩
                · have hpl := pagingLoop_requests o.pageSize o.rowLimit o fns rfl rest
                    { slot := FileSlot.opened, fileRows := fr, requests := [commonParams o],
                      fetchCount := 1, rowCount := c, pageIdx := 0 }
                    (by simp) (requestsSpec_single o)
                  refine ⟨requestsSpec_head o _ (by omega) hpl.2, hpl.2⟩

theorem runBody_valid (o : ExportOptions) (env : Env) (u : String)
    (hval : loadAndValidate o = Except.ok u) (hop : env.openOk = true) :
    runBody o env = processFirst o env.responses := by
  rw [runBody.eq_def, hval, hop]
  simp

theorem run_valid_open (o : ExportOptions) (env : Env) (u : String)
    (hval : loadAndValidate o = Except.ok u) (hop : env.openOk = true) :
    (run o env).raised = (processFirst o env.responses).1 ∧
    (run o env).outcome = (processFirst o env.responses).1 ∧
    (run o env).closeRaised = false ∧
    (run o env).final.slot = FileSlot.closed ∧
    (run o env).final.fileRows = (processFirst o env.responses).2.fileRows ∧
    (run o env).final.requests = (processFirst o env.responses).2.requests ∧
    (run o env).final.fetchCount = (processFirst o env.responses).2.fetchCount ∧
    (run o env).final.rowCount = (processFirst o env.responses).2.rowCount := by
  have hb := runBody_valid o env u hval hop
  have hslot := processFirst_slot o env.responses
  rw [run.eq_def, hb]
  have hclose : closeOutputFile (processFirst o env.responses).2.slot
      = Except.ok FileSlot.closed := by rw [hslot]; rfl
  simp only [hclose]
  simp

/-! Claim theorems. -/

/-- C10: closing the output file is idempotent: a close that returns
normally leaves the handle slot reset to the falsy closed value, and a
second closeOutputFile on that slot is a no-op that returns without
raising. -/
theorem closeOutputFile_idempotent (s s2 : FileSlot)
    (h : closeOutputFile s = Except.ok s2) :
    s2 = FileSlot.closed ∧ closeOutputFile s2 = Except.ok s2 := by
  cases s with
  | unset => cases h
  | closed => cases h; exact ⟨rfl, rfl⟩
  | opened => cases h; exact ⟨rfl, rfl⟩

/-- Witness for C10: closing an open handle succeeds and a second close
is a no-op. -/
theorem closeOutputFile_idempotent_witness :
    FileSlot.closed = FileSlot.closed ∧
    closeOutputFile FileSlot.closed = Except.ok FileSlot.closed :=
  closeOutputFile_idempotent FileSlot.opened FileSlot.closed rfl

/-- C1 (code bug): with rowLimit 5, pageSize 3 and pages of 3
sequential rows, the run completes normally after 4 fetches but writes
6 data rows, not the 5 the claim states: the per-row cutoff compares
rowCount > rowLimit before each write, so emission stops only after one
extra row. -/
theorem rowLimit_off_by_one :
    (run optsLimit5 envSeq).outcome = Except.ok () ∧
    (run optsLimit5 envSeq).final.rowCount = 6 ∧
    (run optsLimit5 envSeq).final.fetchCount = 4 :=
  ⟨rfl, rfl, rfl⟩

/-- C4 (code bug): when the run fails before the output file was opened
(here: instance URL and instance name both empty, so loadAndValidate
raises first), the finally clause still calls closeOutputFile, but the
close itself raises AttributeError because self.csvFile was never
assigned, and that AttributeError replaces the original configuration
error as the propagated outcome. -/
theorem close_raises_before_open :
    (run optsNoInstance envSeq).raised = Except.error PyError.valueErrorInstance ∧
    (run optsNoInstance envSeq).closeRaised = true ∧
    (run optsNoInstance envSeq).outcome = Except.error PyError.attributeError :=
  ⟨rfl, rfl, rfl⟩

/-- C5: when the first fetched page has zero rows, the run returns
normally with zero data rows written, an output file containing no rows
at all, and the file handle closed by the finally clause without the
close raising. -/
theorem emptyFirstPage_success (o : ExportOptions) (env : Env) (u : String)
    (body : List (String × Json)) (rest : List Response)
    (hval : loadAndValidate o = Except.ok u) (hop : env.openOk = true)
    (hresp : env.responses = Response.success body :: rest)
    (hres : dictGet "result" body = some (Json.arr [])) :
    (run o env).outcome = Except.ok () ∧
    (run o env).final.rowCount = 0 ∧
    (run o env).final.fileRows = [] ∧
    (run o env).final.slot = FileSlot.closed ∧
    (run o env).closeRaised = false := by
  obtain ⟨hr, ho, hc, hs, hf, hq, hn, hrc⟩ := run_valid_open o env u hval hop
  rw [hresp] at ho hf hrc
  have hcnt : getResultCountFromJson body = Except.ok 0 := by
    unfold getResultCountFromJson
    rw [hres]
    rfl
  have h1 : (processFirst o (Response.success body :: rest)).1 = Except.ok () := by
    rw [processFirst.eq_def]
    simp [hcnt]
  have h2 : (processFirst o (Response.success body :: rest)).2.rowCount = 0 := by
    rw [processFirst.eq_def]
    simp [hcnt]
  have h3 : (processFirst o (Response.success body :: rest)).2.fileRows = [] := by
    rw [processFirst.eq_def]
    simp [hcnt]
  exact ⟨ho.trans h1, hrc.trans h2, hf.trans h3, hs, hc⟩

/-- Witness for C5 at a concrete empty-result environment. -/
theorem emptyFirstPage_success_witness :
    (run optsBase envEmptyResult).outcome = Except.ok () ∧
    (run optsBase envEmptyResult).final.rowCount = 0 ∧
    (run optsBase envEmptyResult).final.fileRows = [] ∧
    (run optsBase envEmptyResult).final.slot = FileSlot.closed ∧
    (run optsBase envEmptyResult).closeRaised = false :=
  emptyFirstPage_success optsBase envEmptyResult "dev1.service-now.com"
    [("result", Json.arr [])] [] rfl rfl rfl rfl

/-- Configuration validation rejects basic auth with a missing
credential: loadAndValidate returns one of its configuration
ValueErrors. -/
theorem loadAndValidate_basic_error (o : ExportOptions)
    (hauth : o.authType = "basic") (hcred : o.username = "" ∨ o.password = "") :
    ∃ e, loadAndValidate o = Except.error e ∧ isConfigError e = true := by
  by_cases hurl : o.instanceUrl = ""
  · by_cases hname : o.instanceName = ""
    · refine ⟨PyError.valueErrorInstance, ?_, rfl⟩
      rw [loadAndValidate.eq_def]
      simp [hurl, hname]
    · by_cases hu : o.username = ""
      · refine ⟨PyError.valueErrorUsername, ?_, rfl⟩
        rw [loadAndValidate.eq_def]
        simp [hurl, hname, AUTH_BASIC, hauth, hu]
      · have hp : o.password = "" := hcred.resolve_left hu
        refine ⟨PyError.valueErrorPassword, ?_, rfl⟩
        rw [loadAndValidate.eq_def]
        simp [hurl, hname, AUTH_BASIC, hauth, hu, hp]
  · by_cases hu : o.username = ""
    · refine ⟨PyError.valueErrorUsername, ?_, rfl⟩
      rw [loadAndValidate.eq_def]
      simp [hurl, AUTH_BASIC, hauth, hu]
    · have hp : o.password = "" := hcred.resolve_left hu
      refine ⟨PyError.valueErrorPassword, ?_, rfl⟩
      rw [loadAndValidate.eq_def]
      simp [hurl, AUTH_BASIC, hauth, hu, hp]

/-- C6: for every configuration using basic auth with an empty username
or password, the run raises a configuration ValueError inside
loadAndValidate and no network request is ever issued: validation
strictly precedes the first fetch. -/
theorem basicAuth_error_before_fetch (o : ExportOptions) (env : Env)
    (hauth : o.authType = "basic") (hcred : o.username = "" ∨ o.password = "") :
    (∃ e, (run o env).raised = Except.error e ∧ isConfigError e = true) ∧
    (run o env).final.fetchCount = 0 ∧
    (run o env).final.requests = [] := by
  obtain ⟨e, he, hce⟩ := loadAndValidate_basic_error o hauth hcred
  have hrb : runBody o env = (Except.error e,
      { slot := FileSlot.unset, fileRows := [], requests := [],
        fetchCount := 0, rowCount := 0, pageIdx := 0 }) := by
    rw [runBody.eq_def]
    simp [he]
  rw [run.eq_def]
  simp only [hrb]
  exact ⟨⟨e, rfl, hce⟩, rfl, rfl⟩

/-- Witness for C6: basic auth with an empty username. -/
theorem basicAuth_error_before_fetch_witness :
    (∃ e, (run optsBasicNoUser envSeq).raised = Except.error e ∧ isConfigError e = true) ∧
    (run optsBasicNoUser envSeq).final.fetchCount = 0 ∧
    (run optsBasicNoUser envSeq).final.requests = [] :=
  basicAuth_error_before_fetch optsBasicNoUser envSeq rfl (Or.inl rfl)

/-- C3 counterexample: a success response whose body has no top-level
result field makes the fetch fail with KeyError (raised by the dict
lookup), not with the schema TypeError of getResultCountFromJson that
the claim calls the schema error; the full run aborts with that
KeyError. -/
theorem resultMissing_isKeyError :
    getResultCountFromJson [("x", Json.null)] = Except.error PyError.keyError ∧
    PyError.keyError ≠ PyError.typeErrorResult ∧
    (run optsBase envNoResult).raised = Except.error PyError.keyError :=
  ⟨rfl, by decide, rfl⟩

/-- C3 amended: on a success response, an absent result field fails with
KeyError, a present but non-array result fails with the schema
TypeError, and either error aborts the export; when result is an array,
the count is its length and the rows the run iterates are exactly that
array. -/
theorem result_schema_behaviour :
    (∀ body : List (String × Json), dictGet "result" body = none →
       getResultCountFromJson body = Except.error PyError.keyError) ∧
    (∀ (body : List (String × Json)) (j : Json), dictGet "result" body = some j →
       isArr j = false →
       getResultCountFromJson body = Except.error PyError.typeErrorResult) ∧
    (∀ (body : List (String × Json)) (xs : List Json),
       dictGet "result" body = some (Json.arr xs) →
       getResultCountFromJson body = Except.ok xs.length ∧ resultList body = xs) ∧
    (∀ (o : ExportOptions) (env : Env) (u : String) (body : List (String × Json))
       (rest : List Response) (e : PyError),
       loadAndValidate o = Except.ok u → env.openOk = true →
       env.responses = Response.success body :: rest →
       getResultCountFromJson body = Except.error e →
       (run o env).raised = Except.error e ∧ (run o env).outcome = Except.error e) := by
  refine ⟨?_, ?_, ?_, ?_⟩
  · intro body h
    unfold getResultCountFromJson
    rw [h]
  · intro body j hj hna
    unfold getResultCountFromJson
    rw [hj]
    cases j with
    | arr xs => simp [isArr] at hna
    | null => rfl
    | str s => rfl
    | obj f => rfl
  · intro body xs h
    constructor
    · unfold getResultCountFromJson
      rw [h]
    · unfold resultList
      rw [h]
  · intro o env u body rest e hval hop hresp hcnt
    obtain ⟨hr, ho, hc, hs, hf, hq, hn, hrc⟩ := run_valid_open o env u hval hop
    rw [hresp] at hr ho
    have h1 : (processFirst o (Response.success body :: rest)).1 = Except.error e := by
      rw [processFirst.eq_def]
      simp [hcnt]
    exact ⟨hr.trans h1, ho.trans h1⟩

/-- Witness for C3 amended: missing result gives KeyError and aborts
the run; a string result gives the schema TypeError; an array result
returns its rows. -/
theorem result_schema_behaviour_witness :
    getResultCountFromJson [("x", Json.null)] = Except.error PyError.keyError ∧
    getResultCountFromJson [("result", Json.str "no")] = Except.error PyError.typeErrorResult ∧
    (getResultCountFromJson [("result", Json.arr [Json.null])] = Except.ok 1 ∧
      resultList [("result", Json.arr [Json.null])] = [Json.null]) ∧
    ((run optsBase envNoResult).raised = Except.error PyError.keyError ∧
      (run optsBase envNoResult).outcome = Except.error PyError.keyError) := by
  refine ⟨?_, ?_, ?_, ?_⟩
  · exact result_schema_behaviour.1 [("x", Json.null)] rfl
  · exact result_schema_behaviour.2.1 [("result", Json.str "no")] (Json.str "no") rfl rfl
  · exact result_schema_behaviour.2.2.1 [("result", Json.arr [Json.null])] [Json.null] rfl
  · exact result_schema_behaviour.2.2.2 optsBase envNoResult "dev1.service-now.com"
      [("x", Json.null)] [] PyError.keyError rfl rfl rfl rfl

/-- C9 counterexample: a row whose field set differs from the header by
an extra field does raise: DictWriter rejects keys outside the
fieldnames with a ValueError, aborting the run. -/
theorem extraField_raises :
    writerow ["a"] (Json.obj [("a", Json.str "2"), ("c", Json.str "3")])
      = Except.error PyError.valueErrorFields ∧
    (run optsBase envExtraField).outcome = Except.error PyError.valueErrorFields :=
  ⟨rfl, rfl⟩

/-- C9 amended: the header field set is only partially enforced when a
row is written: a row missing header fields does not raise (each
missing field is filled with the empty restval), but a row with any
field outside the header raises the DictWriter ValueError. -/
theorem writerow_field_enforcement (fieldnames : List String) (row : List (String × Json)) :
    (row.all (fun kv => fieldnames.contains kv.fst) = true →
       writerow fieldnames (Json.obj row)
         = Except.ok (fieldnames.map (fun f => fieldToStr (dictGet f row))) ∧
       ∀ f : String, dictGet f row = none → fieldToStr (dictGet f row) = "") ∧
    (row.all (fun kv => fieldnames.contains kv.fst) = false →
       writerow fieldnames (Json.obj row) = Except.error PyError.valueErrorFields) := by
  constructor
  · intro h
    constructor
    · show dictToCells fieldnames row = _
      unfold dictToCells
      rw [if_pos h]
    · intro f hf
      rw [hf]
      rfl
  · intro h
    show dictToCells fieldnames row = _
    unfold dictToCells
    rw [if_neg (by rw [h]; simp)]

/-- Witness for C9 amended: a row missing field b is written with an
empty cell for b and no error. -/
theorem writerow_field_enforcement_witness :
    writerow ["a", "b"] (Json.obj [("a", Json.str "1")]) = Except.ok ["1", ""] :=
  ((writerow_field_enforcement ["a", "b"] [("a", Json.str "1")]).1 (by decide)).1

/-- When the first page is non-empty, the file contents across every
branch of the run start with the header row derived from the first
row's keys, and every written line has as many cells as that header. -/
theorem processFirst_fileRows (o : ExportOptions) (body : List (String × Json))
    (rest : List Response) (f1 : List (String × Json)) (tl : List Json)
    (hres : dictGet "result" body = some (Json.arr (Json.obj f1 :: tl))) :
    (∃ extra, (processFirst o (Response.success body :: rest)).2.fileRows
        = [f1.map Prod.fst] ++ extra) ∧
    (∀ l ∈ (processFirst o (Response.success body :: rest)).2.fileRows,
        l.length = (f1.map Prod.fst).length) := by
  have hcnt : getResultCountFromJson body = Except.ok (tl.length + 1) := by
    unfold getResultCountFromJson
    rw [hres]
    rfl
  have hrl : resultList body = Json.obj f1 :: tl := by
    unfold resultList
    rw [hres]
  rw [processFirst.eq_def]
  simp only [hcnt, hrl, getHeaderNamesFromJson]
  rw [if_neg (by omega)]
  rcases hw : writeRows (f1.map Prod.fst) o.rowLimit (Json.obj f1 :: tl) 0 [f1.map Prod.fst]
    with ⟨res, c, fr⟩
  have hpre : ∃ extra, fr = [f1.map Prod.fst] ++ extra := by
    have h := writeRows_acc_prefix (f1.map Prod.fst) o.rowLimit (Json.obj f1 :: tl) 0
      [f1.map Prod.fst]
    rw [hw] at h
    exact h
  have hlen : ∀ l ∈ fr, l.length = (f1.map Prod.fst).length := by
    have h := writeRows_lengths (f1.map Prod.fst) o.rowLimit (Json.obj f1 :: tl) 0
      [f1.map Prod.fst] (by simp)
    rw [hw] at h
    exact h
  cases res with
  | error e =>
    simp only [hw]
    exact ⟨hpre, hlen⟩
  | ok u =>
    simp only [hw]
    split
    · exact ⟨hpre, hlen⟩
    · constructor
      · obtain ⟨e1, h1⟩ := hpre
        obtain ⟨e2, h2⟩ := pagingLoop_fileRows_prefix o.pageSize o.rowLimit (commonParams o)
          (f1.map Prod.fst) rest
          { slot := FileSlot.opened, fileRows := fr, requests := [commonParams o],
            fetchCount := 1, rowCount := c, pageIdx := 0 }
        refine ⟨e1 ++ e2, ?_⟩
        rw [h2]
        simp only [h1, List.append_assoc]
      · refine pagingLoop_lengths o.pageSize o.rowLimit (commonParams o)
          (f1.map Prod.fst) rest
          { slot := FileSlot.opened, fileRows := fr, requests := [commonParams o],
            fetchCount := 1, rowCount := c, pageIdx := 0 } ?_
        intro l hl
        exact hlen l hl

/-- C7 counterexample: the unix csv dialect quotes every field, so with
field list a,b the serialized header line is "a","b" with quotes, not
the bare a,b the claim states. -/
theorem headerLine_is_quoted :
    (run optsAB envAB).final.fileRows.head? = some ["a", "b"] ∧
    csvUnixLine ["a", "b"] = "\"a\",\"b\"" ∧
    "\"a\",\"b\"" ≠ "a,b" :=
  ⟨rfl, rfl, by decide⟩

/-- C7 amended: the header comes from the first row of the first page
and is written first; when the first row's fields are exactly a then b,
the header serializes to the quoted line "a","b" and every line in the
file, header and data rows alike, has exactly two cells in that column
order. -/
theorem header_from_first_row (o : ExportOptions) (env : Env) (u : String)
    (body : List (String × Json)) (rest : List Response)
    (f1 : List (String × Json)) (tl : List Json)
    (hval : loadAndValidate o = Except.ok u) (hop : env.openOk = true)
    (hresp : env.responses = Response.success body :: rest)
    (hres : dictGet "result" body = some (Json.arr (Json.obj f1 :: tl)))
    (hf : f1.map Prod.fst = ["a", "b"]) :
    (run o env).final.fileRows.head? = some ["a", "b"] ∧
    csvUnixLine ["a", "b"] = "\"a\",\"b\"" ∧
    ∀ l ∈ (run o env).final.fileRows, l.length = 2 := by
  obtain ⟨hr, ho, hc, hs, hf2, hq, hn, hrc⟩ := run_valid_open o env u hval hop
  rw [hresp] at hf2
  obtain ⟨hpre, hlen⟩ := processFirst_fileRows o body rest f1 tl hres
  rw [hf] at hpre hlen
  refine ⟨?_, rfl, ?_⟩
  · obtain ⟨extra, hx⟩ := hpre
    rw [hf2, hx]
    rfl
  · intro l hl
    rw [hf2] at hl
    exact hlen l hl

/-- Witness for C7 amended at a concrete one-page a/b export. -/
theorem header_from_first_row_witness :
    (run optsAB envAB).final.fileRows.head? = some ["a", "b"] ∧
    csvUnixLine ["a", "b"] = "\"a\",\"b\"" ∧
    ∀ l ∈ (run optsAB envAB).final.fileRows, l.length = 2 :=
  header_from_first_row optsAB envAB "dev1.service-now.com"
    [("result", Json.arr [rowAB "1" "2"])] [] [("a", Json.str "1"), ("b", Json.str "2")] []
    rfl rfl rfl rfl rfl

/-- A full, writable first page sends the run into the pagination loop
with exactly one fetch counted so far. -/
theorem processFirst_to_loop (o : ExportOptions) (body : List (String × Json))
    (rest : List Response) (f1 : List (String × Json)) (tl : List Json)
    (hres : dictGet "result" body = some (Json.arr (Json.obj f1 :: tl)))
    (hwr : rowsWritable (f1.map Prod.fst) (Json.obj f1 :: tl) = true)
    (hfull : ¬ (((Json.obj f1 :: tl).length : Nat) : Int) < o.pageSize) :
    ∃ c fr, processFirst o (Response.success body :: rest)
      = pagingLoop o.pageSize o.rowLimit (commonParams o) (f1.map Prod.fst) rest
          { slot := FileSlot.opened, fileRows := fr, requests := [commonParams o],
            fetchCount := 1, rowCount := c, pageIdx := 0 } := by
  have hcnt : getResultCountFromJson body = Except.ok (tl.length + 1) := by
    unfold getResultCountFromJson
    rw [hres]
    rfl
  have hrl : resultList body = Json.obj f1 :: tl := by
    unfold resultList
    rw [hres]
  have hfull2 : ¬ ((tl.length + 1 : Nat) : Int) < o.pageSize := by
    simpa using hfull
  rw [processFirst.eq_def]
  simp only [hcnt, hrl, getHeaderNamesFromJson]
  rw [if_neg (by omega)]
  rcases hw : writeRows (f1.map Prod.fst) o.rowLimit (Json.obj f1 :: tl) 0 [f1.map Prod.fst]
    with ⟨res, c, fr⟩
  have hok := writeRows_fst_ok (f1.map Prod.fst) o.rowLimit (Json.obj f1 :: tl) 0
    [f1.map Prod.fst] hwr
  rw [hw] at hok
  cases res with
  | error e => cases hok
  | ok u =>
    simp only [hw]
    rw [if_neg hfull2]
    exact ⟨c, fr, rfl⟩

/-- A successful page that parses, writes cleanly, and is shorter than
the page size ends the pagination loop normally after exactly one more
fetch, whatever responses might still be scripted. -/
theorem pagingLoop_short_page (ps rl : Int) (common : Params) (fn : List String)
    (body : List (String × Json)) (rest : List Response) (st : St) (rows : List Json)
    (hres : dictGet "result" body = some (Json.arr rows))
    (hwr : rowsWritable fn rows = true)
    (hshort : ((rows.length : Nat) : Int) < ps) :
    (pagingLoop ps rl common fn (Response.success body :: rest) st).1 = Except.ok () ∧
    (pagingLoop ps rl common fn (Response.success body :: rest) st).2.fetchCount
      = st.fetchCount + 1 := by
  have hcnt : getResultCountFromJson body = Except.ok rows.length := by
    unfold getResultCountFromJson
    rw [hres]
  have hrl : resultList body = rows := by
    unfold resultList
    rw [hres]
  rw [pagingLoop.eq_def]
  simp only [hcnt, hrl]
  rcases hw : writeRows fn rl rows st.rowCount st.fileRows with ⟨res, c, fr⟩
  have hok := writeRows_fst_ok fn rl rows st.rowCount st.fileRows hwr
  rw [hw] at hok
  cases res with
  | error e => cases hok
  | ok u =>
    simp only [hw]
    rw [if_pos hshort]
    exact ⟨rfl, rfl⟩

/-- C2: a short page is the sole end-of-data signal.  First part: a
full first page followed by a short second page means exactly two
fetches and a normal return, regardless of any further scripted
responses.  Second part: a first page already shorter than the page
size means no second fetch is ever issued. -/
theorem short_page_is_sole_end_signal :
    (∀ (o : ExportOptions) (env : Env) (u : String)
       (b1 b2 : List (String × Json)) (rest : List Response)
       (f1 : List (String × Json)) (tl rows2 : List Json),
       loadAndValidate o = Except.ok u → env.openOk = true →
       env.responses = Response.success b1 :: Response.success b2 :: rest →
       dictGet "result" b1 = some (Json.arr (Json.obj f1 :: tl)) →
       dictGet "result" b2 = some (Json.arr rows2) →
       rowsWritable (f1.map Prod.fst) (Json.obj f1 :: tl) = true →
       rowsWritable (f1.map Prod.fst) rows2 = true →
       (((Json.obj f1 :: tl).length : Nat) : Int) = o.pageSize →
       ((rows2.length : Nat) : Int) < o.pageSize →
       (run o env).outcome = Except.ok () ∧ (run o env).final.fetchCount = 2) ∧
    (∀ (o : ExportOptions) (env : Env) (u : String)
       (b1 : List (String × Json)) (rest : List Response) (rows1 : List Json),
       loadAndValidate o = Except.ok u → env.openOk = true →
       env.responses = Response.success b1 :: rest →
       dictGet "result" b1 = some (Json.arr rows1) →
       ((rows1.length : Nat) : Int) < o.pageSize →
       (run o env).final.fetchCount = 1) := by
  constructor
  · intro o env u b1 b2 rest f1 tl rows2 hval hop hresp hr1 hr2 hw1 hw2 hfull hshort
    obtain ⟨hr, ho, hc, hs, hf, hq, hn, hrc⟩ := run_valid_open o env u hval hop
    rw [hresp] at ho hn
    have hfull2 : ¬ (((Json.obj f1 :: tl).length : Nat) : Int) < o.pageSize := by
      rw [hfull]
      exact lt_irrefl _
    obtain ⟨c, fr, hpf⟩ := processFirst_to_loop o b1 (Response.success b2 :: rest) f1 tl
      hr1 hw1 hfull2
    rw [hpf] at ho hn
    obtain ⟨hl1, hl2⟩ := pagingLoop_short_page o.pageSize o.rowLimit (commonParams o)
      (f1.map Prod.fst) b2 rest
      { slot := FileSlot.opened, fileRows := fr, requests := [commonParams o],
        fetchCount := 1, rowCount := c, pageIdx := 0 } rows2 hr2 hw2 hshort
    refine ⟨ho.trans hl1, ?_⟩
    rw [hn, hl2]
  · intro o env u b1 rest rows1 hval hop hresp hr1 hshort
    obtain ⟨hr, ho, hc, hs, hf, hq, hn, hrc⟩ := run_valid_open o env u hval hop
    rw [hresp] at hn
    rw [hn]
    have hcnt : getResultCountFromJson b1 = Except.ok rows1.length := by
      unfold getResultCountFromJson
      rw [hr1]
    have hrl : resultList b1 = rows1 := by
      unfold resultList
      rw [hr1]
    rw [processFirst.eq_def]
    simp only [hcnt, hrl]
    split
    · rfl
    · cases rows1 with
      | nil => rfl
      | cons r0 rtl =>
        cases hh : getHeaderNamesFromJson r0 with
        | error e => simp only [hh]
        | ok fns =>
          simp only [hh]
          rcases hw : writeRows fns o.rowLimit (r0 :: rtl) 0 [fns] with ⟨res, c, fr⟩
          cases res with
          | error e => simp only [hw]
          | ok u2 =>
            simp only [hw]

set_option maxRecDepth 16000

/-- Witness for C2 at page size 500 with a full 500-row first page and
a 200-row second page: two fetches and a normal return. -/
theorem short_page_is_sole_end_signal_witness :
    (run opts500 env500).outcome = Except.ok () ∧
    (run opts500 env500).final.fetchCount = 2 :=
  short_page_is_sole_end_signal.1 opts500 env500 "dev1.service-now.com"
    body500 body200 [] [("a", Json.str "x")] (List.replicate 499 rowA)
    (List.replicate 200 rowA) rfl rfl rfl rfl rfl (by decide) (by decide)
    (by decide) (by decide)

/-- C8 counterexample: the first page request carries no offset
parameter at all: its params dict is exactly the common params, in
which a sysparm_offset lookup finds nothing, so the first request is
not issued with an offset-0 parameter (the remote default supplies the
zero). -/
theorem firstRequest_has_no_offset :
    (run optsBase envAB).final.requests.head? = some (commonParams optsBase) ∧
    dictGet "sysparm_offset" (commonParams optsBase) = none :=
  ⟨rfl, rfl⟩

/-- C8 amended: every run that passes validation and opens the output
file issues its first request with exactly the common params and no
offset parameter, and every request for page k ≥ 1 with the same
common params plus offset = k * pageSize appended; the common params
carry limit = pageSize, the reference-link suppression fixed to the
string true, the display-value flag, the filter query, and the field
list exactly when one is configured. -/
theorem request_parameters (o : ExportOptions) (env : Env) (u : String)
    (hval : loadAndValidate o = Except.ok u) (hop : env.openOk = true) :
    (run o env).final.requests.get? 0 = some (commonParams o) ∧
    requestsSpec o (run o env).final.requests ∧
    dictGet "sysparm_limit" (commonParams o) = some (PValue.i o.pageSize) ∧
    dictGet "sysparm_exclude_reference_link" (commonParams o) = some (PValue.s "true") ∧
    dictGet "sysparm_display_value" (commonParams o) = some (PValue.b o.displayValue) ∧
    dictGet "sysparm_query" (commonParams o) = some (PValue.s o.query) ∧
    (o.fields ≠ "" → dictGet "sysparm_fields" (commonParams o) = some (PValue.s o.fields)) ∧
    dictGet "sysparm_offset" (commonParams o) = none ∧
    (∀ k : Nat, dictGet "sysparm_offset" (pageRequest o k)
        = some (PValue.i ((k : Int) * o.pageSize))) := by
  obtain ⟨hr, ho, hc, hs, hf, hq, hn, hrc⟩ := run_valid_open o env u hval hop
  obtain ⟨h0, hspec⟩ := processFirst_requests o env.responses
  refine ⟨?_, ?_, ?_, ?_, ?_, ?_, ?_, ?_, ?_⟩
  · rw [hq]
    exact h0
  · rw [hq]
    exact hspec
  · rfl
  · rfl
  · rfl
  · rfl
  · intro hfld
    unfold commonParams
    rw [if_pos hfld]
    rfl
  · by_cases hfld : o.fields = ""
    · unfold commonParams
      rw [if_neg (by simp [hfld])]
      rfl
    · unfold commonParams
      rw [if_pos hfld]
      rfl
  · intro k
    by_cases hfld : o.fields = ""
    · unfold pageRequest commonParams
      rw [if_neg (by simp [hfld])]
      rfl
    · unfold pageRequest commonParams
      rw [if_pos hfld]
      rfl

/-- Witness for C8 amended: the first recorded request of a concrete
run is exactly the common params. -/
theorem request_parameters_witness :
    (run optsBase envAB).final.requests.get? 0 = some (commonParams optsBase) ∧
    dictGet "sysparm_limit" (commonParams optsBase) = some (PValue.i optsBase.pageSize) :=
  ⟨(request_parameters optsBase envAB "dev1.service-now.com" rfl rfl).1,
   (request_parameters optsBase envAB "dev1.service-now.com" rfl rfl).2.2.1⟩

end SNDE
